import Mathlib

/-!
Verification of the persistence and cascade-integrity layer of the image
gallery application (`src/services/db.ts`).

The store (IndexedDB) is embedded as a pure state type `DB` holding the two
object stores, `groups` and `images`, as lists kept in primary-key order
(keys are auto-incremented, so key order is insertion order), together with
the two stores' key generators.  Each repository operation of `db.ts` is
embedded as a function from `DB` to `DB` paired with an outcome: mutating
operations return the post-state and an optional error (the post-state
equals the pre-state whenever the operation's transaction aborts, matching
IndexedDB's rollback-on-abort semantics), read operations return
`Except DbError` results.

Nondeterministic engine behaviour (a request firing its `onerror` handler)
is made explicit as parameters: Boolean flags for operations issuing a
fixed number of requests, and for the cursor-driven bulk delete an
`Option Nat` giving the step at which the cursor request errors, if any.
Each call of `new Date().toISOString()` in the source is likewise made an
explicit `String` parameter, in source order.
-/

/-- A record of the `groups` object store: `{ id, name, createdAt, updatedAt }`. -/
structure ImageGroup where
  id : Nat
  name : String
  createdAt : String
  updatedAt : String
deriving Repr, DecidableEq

/-- A record of the `images` object store: `{ id, groupId, name, blob, createdAt }`.
The blob is an opaque byte payload, embedded as a list of bytes. -/
structure StoredImage where
  id : Nat
  groupId : Nat
  name : String
  blob : List Nat
  createdAt : String
deriving Repr, DecidableEq

/-- The state of the `ImageGalleryDB` database: the two object stores in
primary-key order plus their auto-increment key generators (IndexedDB key
generators start at 1). -/
structure DB where
  groups : List ImageGroup
  images : List StoredImage
  nextGroupId : Nat
  nextImageId : Nat
deriving Repr, DecidableEq

/-- A freshly created database: both stores empty, key generators at 1. -/
def DB.empty : DB := { groups := [], images := [], nextGroupId := 1, nextImageId := 1 }

/-- The distinct rejection reasons of `db.ts`, one constructor per kind of
reject site: a "not found" rejection in the rename operations, a failed
write request, a failed read request, and a failed database open. -/
inductive DbError where
  | notFound (msg : String)
  | writeError (msg : String)
  | readError (msg : String)
  | connectionFailed (msg : String)
deriving Repr, DecidableEq

/-- Embeds `openDB` (db.ts lines 88-125): builds a fresh `indexedDB.open` request on
every call; there is no module-level cache of the handle.  We track the
number of `indexedDB.open` invocations performed so far and return the new
handle, numbered by open order: a cached design would return a previously
issued handle, this one always returns a fresh one. -/
def openDB (openedSoFar : Nat) : Nat × Nat :=
  (openedSoFar, openedSoFar + 1)

/-- Embeds `createGroup` (db.ts lines 147-169): single `add` request on `groups`.
`t1` and `t2` are the values of the two successive
`new Date().toISOString()` calls (line 155 for `createdAt`, line 156 for
`updatedAt`).  On success resolves with the store-assigned key; on request
error the transaction aborts and the store is unchanged. -/
def createGroup (db : DB) (name t1 t2 : String) (engineOk : Bool) :
    DB × Except DbError Nat :=
  if engineOk then
    ({ db with
        groups := db.groups ++
          [{ id := db.nextGroupId, name := name, createdAt := t1, updatedAt := t2 }],
        nextGroupId := db.nextGroupId + 1 },
     Except.ok db.nextGroupId)
  else
    (db, Except.error (DbError.writeError "Failed to create group"))

/-- Embeds `getAllGroups` (db.ts lines 185-200): `getAll` on `groups`, records in
key order. -/
def getAllGroups (db : DB) (engineOk : Bool) : Except DbError (List ImageGroup) :=
  if engineOk then Except.ok db.groups
  else Except.error (DbError.readError "Failed to get groups")

/-- Embeds `getGroup` (db.ts lines 217-232): `get` by key; a missing key resolves
with `undefined`, surfaced as `null` — an absent result, not an error. -/
def getGroup (db : DB) (id : Nat) (engineOk : Bool) :
    Except DbError (Option ImageGroup) :=
  if engineOk then Except.ok (db.groups.find? (fun g => g.id == id))
  else Except.error (DbError.readError "Failed to get group")

/-- Embeds `renameGroup` (db.ts lines 251-285): within one readwrite transaction,
`get` the record by key; reject with the not-found message if absent,
otherwise overwrite `name` and `updatedAt` (with `t`, the value of the
`new Date().toISOString()` call at line 268) and `put` the record back
under the same key.  `getOk`/`putOk` are the engine outcomes of the two
requests; any request error aborts the transaction, leaving the store
unchanged. -/
def renameGroup (db : DB) (groupId : Nat) (newName t : String)
    (getOk putOk : Bool) : DB × Option DbError :=
  if getOk then
    match db.groups.find? (fun g => g.id == groupId) with
    | none =>
        (db, some (DbError.notFound
          ("Group with ID " ++ toString groupId ++ " not found")))
    | some _ =>
        if putOk then
          ({ db with
              groups := db.groups.map (fun g =>
                if g.id == groupId then { g with name := newName, updatedAt := t }
                else g) },
           none)
        else (db, some (DbError.writeError "Failed to rename group"))
  else (db, some (DbError.readError "Failed to get group"))

/-- Embeds `addImage` (db.ts lines 348-375): single `add` request on `images`;
`t` is the `new Date().toISOString()` value of line 362. -/
def addImage (db : DB) (groupId : Nat) (name : String) (blob : List Nat)
    (t : String) (engineOk : Bool) : DB × Except DbError Nat :=
  if engineOk then
    ({ db with
        images := db.images ++
          [{ id := db.nextImageId, groupId := groupId, name := name,
             blob := blob, createdAt := t }],
        nextImageId := db.nextImageId + 1 },
     Except.ok db.nextImageId)
  else
    (db, Except.error (DbError.writeError "Failed to add image"))

/-- Embeds `getImagesByGroup` (db.ts lines 396-412): `getAll` on the non-unique
`groupId` index, which yields exactly the records whose `groupId` equals
the queried value, in primary-key order. -/
def getImagesByGroup (db : DB) (groupId : Nat) (engineOk : Bool) :
    Except DbError (List StoredImage) :=
  if engineOk then Except.ok (db.images.filter (fun i => i.groupId == groupId))
  else Except.error (DbError.readError "Failed to get images")

/-- Embeds `renameImage` (db.ts lines 430-463): same read-modify-write shape as
`renameGroup`, but only the `name` field is overwritten (no timestamp
refresh for images). -/
def renameImage (db : DB) (imageId : Nat) (newName : String)
    (getOk putOk : Bool) : DB × Option DbError :=
  if getOk then
    match db.images.find? (fun i => i.id == imageId) with
    | none =>
        (db, some (DbError.notFound
          ("Image with ID " ++ toString imageId ++ " not found")))
    | some _ =>
        if putOk then
          ({ db with
              images := db.images.map (fun i =>
                if i.id == imageId then { i with name := newName } else i) },
           none)
        else (db, some (DbError.writeError "Failed to rename image"))
  else (db, some (DbError.readError "Failed to get image"))

/-- Embeds `deleteImage` (db.ts lines 478-493): single `delete`-by-key request;
IndexedDB `delete` succeeds whether or not a record with that key exists. -/
def deleteImage (db : DB) (imageId : Nat) (engineOk : Bool) :
    DB × Option DbError :=
  if engineOk then
    ({ db with images := db.images.filter (fun i => i.id != imageId) }, none)
  else (db, some (DbError.writeError "Failed to delete image"))

/-- The primary keys visited by the cursor of `deleteImagesByGroup`: the keys
of all records whose `groupId` index value matches, in key order. -/
def matchingIds (imgs : List StoredImage) (groupId : Nat) : List Nat :=
  (imgs.filter (fun i => i.groupId == groupId)).map (fun i => i.id)

/-- The effect of the cursor loop's `cursor.delete()` calls: each visited
key is deleted from the store, in visit order. -/
def deleteByIds (imgs : List StoredImage) (ids : List Nat) : List StoredImage :=
  ids.foldl (fun acc k => acc.filter (fun i => i.id != k)) imgs

/-- Embeds `deleteImagesByGroup` (db.ts lines 506-528): one readwrite transaction on
`images`; a cursor over the `groupId` index visits every matching record and
deletes it, resolving when the cursor is exhausted.  The cursor request
completes `n + 1` times for `n` matches; `failAt = some k` means the `k`-th
completion (0-based) fires `onerror` instead — the promise rejects and the
transaction aborts, rolling back every delete already issued, so the store
is unchanged.  `failAt = none` (or a step past the end) means the traversal
completes and the transaction commits. -/
def deleteImagesByGroup (db : DB) (groupId : Nat) (failAt : Option Nat) :
    DB × Option DbError :=
  let ids := matchingIds db.images groupId
  match failAt with
  | none => ({ db with images := deleteByIds db.images ids }, none)
  | some k =>
      if k < ids.length + 1 then
        (db, some (DbError.writeError "Failed to delete images"))
      else
        ({ db with images := deleteByIds db.images ids }, none)

/-- Embeds `deleteGroup` (db.ts lines 303-323): awaits `deleteImagesByGroup` first;
only if that resolves does it open a second transaction on `groups` and
issue the `delete`-by-key request for the group row (`groupDelOk` being that
request's engine outcome).  If the image phase rejects, the error propagates
and the group row is never touched. -/
def deleteGroup (db : DB) (groupId : Nat) (failAt : Option Nat)
    (groupDelOk : Bool) : DB × Option DbError :=
  match deleteImagesByGroup db groupId failAt with
  | (db1, some e) => (db1, some e)
  | (db1, none) =>
      if groupDelOk then
        ({ db1 with groups := db1.groups.filter (fun g => g.id != groupId) }, none)
      else (db1, some (DbError.writeError "Failed to delete group"))

/-- The repository operations callable from outside, one constructor per
exported function of `db.ts`, carrying the caller-supplied arguments and
the timestamps read during the call. -/
inductive Op where
  | createGroupOp (name t1 t2 : String)
  | getAllGroupsOp
  | getGroupOp (id : Nat)
  | renameGroupOp (id : Nat) (newName t : String)
  | deleteGroupOp (id : Nat)
  | addImageOp (groupId : Nat) (name : String) (blob : List Nat) (t : String)
  | getImagesByGroupOp (groupId : Nat)
  | renameImageOp (id : Nat) (newName : String)
  | deleteImageOp (id : Nat)
deriving Repr, DecidableEq

/-- One repository call on the engine-success path.  Every exported function
of `db.ts` begins with `const db = await openDB()`, so each call first
invokes `openDB` — which performs a fresh `indexedDB.open` — and then runs
its transaction against the resulting handle.  The state is the database
contents paired with the count of `indexedDB.open` invocations so far. -/
def runOp (st : DB × Nat) (op : Op) : DB × Nat :=
  let (db, opened) := st
  let (_handle, opened') := openDB opened
  match op with
  | Op.createGroupOp name t1 t2 => ((createGroup db name t1 t2 true).1, opened')
  | Op.getAllGroupsOp => (db, opened')
  | Op.getGroupOp _ => (db, opened')
  | Op.renameGroupOp id newName t => ((renameGroup db id newName t true true).1, opened')
  | Op.deleteGroupOp id => ((deleteGroup db id none true).1, opened')
  | Op.addImageOp groupId name blob t => ((addImage db groupId name blob t true).1, opened')
  | Op.getImagesByGroupOp _ => (db, opened')
  | Op.renameImageOp id newName => ((renameImage db id newName true true).1, opened')
  | Op.deleteImageOp id => ((deleteImage db id true).1, opened')

/-- A sequence of repository calls, also recording, per call, the handle
that `openDB` handed to it (handles are numbered by open order, so two
calls receiving the same number used the same connection). -/
def runOps (st : DB × Nat) (ops : List Op) : (DB × Nat) × List Nat :=
  match ops with
  | [] => (st, [])
  | op :: rest =>
      let h := (openDB st.2).1
      let res := runOps (runOp st op) rest
      (res.1, h :: res.2)

/-- Deleting a batch of keys is the same as filtering out every record whose
key occurs in the batch. -/
theorem deleteByIds_eq_filter (ids : List Nat) (imgs : List StoredImage) :
    deleteByIds imgs ids = imgs.filter (fun i => !(ids.contains i.id)) := by
  induction ids generalizing imgs with
  | nil => simp [deleteByIds]
  | cons a as ih =>
      have step : deleteByIds imgs (a :: as) =
          deleteByIds (imgs.filter (fun i => i.id != a)) as := rfl
      rw [step, ih, List.filter_filter]
      apply List.filter_congr
      intro x _
      by_cases h : x.id = a <;>
        simp [h, List.contains_cons, Bool.not_or, Bool.and_comm, bne]

/-- After the cursor pass of the bulk delete, no record with the targeted
`groupId` survives (regardless of key uniqueness). -/
theorem deleteByIds_clears_group (imgs : List StoredImage) (gid : Nat) :
    (deleteByIds imgs (matchingIds imgs gid)).all (fun i => i.groupId != gid) = true := by
  rw [deleteByIds_eq_filter, List.all_eq_true]
  intro i hi
  rcases List.mem_filter.mp hi with ⟨him, hc⟩
  cases hg : (i.groupId == gid) with
  | false => simp [bne, hg]
  | true =>
      exfalso
      have hmem : i.id ∈ matchingIds imgs gid :=
        List.mem_map.mpr ⟨i, List.mem_filter.mpr ⟨him, hg⟩, rfl⟩
      have hcont : (matchingIds imgs gid).contains i.id = true :=
        List.elem_iff.mpr hmem
      rw [hcont] at hc
      simp at hc

/-- With unique primary keys, the cursor pass removes exactly the records
whose `groupId` matches, leaving every other record in place. -/
theorem deleteByIds_matching (imgs : List StoredImage) (gid : Nat)
    (h : (imgs.map (fun i => i.id)).Nodup) :
    deleteByIds imgs (matchingIds imgs gid) =
      imgs.filter (fun i => i.groupId != gid) := by
  rw [deleteByIds_eq_filter]
  apply List.filter_congr
  intro x hx
  have key : (matchingIds imgs gid).contains x.id = (x.groupId == gid) := by
    cases hg : (x.groupId == gid) with
    | true =>
        exact List.elem_iff.mpr
          (List.mem_map.mpr ⟨x, List.mem_filter.mpr ⟨hx, hg⟩, rfl⟩)
    | false =>
        cases hc : (matchingIds imgs gid).contains x.id with
        | false => rfl
        | true =>
            rcases List.mem_map.mp (List.elem_iff.mp hc) with ⟨y, hy, hyx⟩
            rcases List.mem_filter.mp hy with ⟨hym, hyg⟩
            have hxy : y = x := List.inj_on_of_nodup_map h hym hx hyx
            rw [hxy] at hyg
            rw [hg] at hyg
            simp at hyg
  rw [key]
  simp [bne]

/-- If the bulk delete's transaction aborts, the rollback leaves the store
exactly as it was. -/
theorem deleteImagesByGroup_err_state (db : DB) (gid : Nat) (failAt : Option Nat)
    (db1 : DB) (e : DbError)
    (h : deleteImagesByGroup db gid failAt = (db1, some e)) : db1 = db := by
  cases failAt with
  | none => simp [deleteImagesByGroup] at h
  | some k =>
      by_cases hk : k < (matchingIds db.images gid).length + 1
      · simp [deleteImagesByGroup, hk] at h
        exact h.1.symm
      · simp [deleteImagesByGroup, hk] at h

/-- If the bulk delete commits, the post-state is the pre-state with every
cursor-visited key deleted from `images`; nothing else moves. -/
theorem deleteImagesByGroup_ok_state (db : DB) (gid : Nat) (failAt : Option Nat)
    (db1 : DB) (h : deleteImagesByGroup db gid failAt = (db1, none)) :
    db1 = { db with images := deleteByIds db.images (matchingIds db.images gid) } := by
  cases failAt with
  | none =>
      simp [deleteImagesByGroup] at h
      exact h.symm
  | some k =>
      by_cases hk : k < (matchingIds db.images gid).length + 1
      · simp [deleteImagesByGroup, hk] at h
      · simp [deleteImagesByGroup, hk] at h
        exact h.symm

/-- C10: the cascade's bulk image deletion runs all its per-record deletes in
one read-write transaction on `images`, so it is all-or-nothing: on failure
the transaction aborts and the whole store is unchanged; on success (given
the store's guarantee that primary keys are unique) exactly the records
with the given `groupId` are gone and the `groups` store is untouched. -/
theorem deleteImagesByGroup_atomic (db : DB) (gid : Nat) (failAt : Option Nat)
    (db1 : DB) (e : DbError) :
    (deleteImagesByGroup db gid failAt = (db1, some e) → db1 = db)
    ∧ ((db.images.map (fun i => i.id)).Nodup →
        deleteImagesByGroup db gid failAt = (db1, none) →
        db1.images = db.images.filter (fun i => i.groupId != gid)
        ∧ db1.groups = db.groups) := by
  refine ⟨fun h => deleteImagesByGroup_err_state db gid failAt db1 e h, ?_⟩
  intro hnd h
  rw [deleteImagesByGroup_ok_state db gid failAt db1 h]
  exact ⟨deleteByIds_matching db.images gid hnd, rfl⟩

/-- Sample database contents: two groups, three images (two in group 1, one
in group 2). -/
def dbW : DB :=
  { groups := [{ id := 1, name := "Trip", createdAt := "T0", updatedAt := "T0" },
               { id := 2, name := "B", createdAt := "T0", updatedAt := "T0" }],
    images := [{ id := 1, groupId := 1, name := "a", blob := [0], createdAt := "T0" },
               { id := 2, groupId := 1, name := "b", blob := [1], createdAt := "T0" },
               { id := 3, groupId := 2, name := "c", blob := [2], createdAt := "T0" }],
    nextGroupId := 3, nextImageId := 4 }

/-- C10 witness: on `dbW`, whose image keys are distinct, the successful bulk
delete for group 1 removes exactly images 1 and 2 and leaves the groups. -/
theorem deleteImagesByGroup_atomic_witness :
    ((dbW.images.map (fun i => i.id)).Nodup ∧
      deleteImagesByGroup dbW 1 none =
        ({ dbW with
            images := [{ id := 3, groupId := 2, name := "c", blob := [2],
                         createdAt := "T0" }] }, none))
    ∧ ({ dbW with
          images := [{ id := 3, groupId := 2, name := "c", blob := [2],
                       createdAt := "T0" }] } : DB).images
          = dbW.images.filter (fun i => i.groupId != 1)
    ∧ ({ dbW with
          images := [{ id := 3, groupId := 2, name := "c", blob := [2],
                       createdAt := "T0" }] } : DB).groups = dbW.groups := by
  refine ⟨⟨by decide, by decide⟩, ?_⟩
  exact (deleteImagesByGroup_atomic dbW 1 none
    { dbW with
        images := [{ id := 3, groupId := 2, name := "c", blob := [2],
                     createdAt := "T0" }] }
    (DbError.writeError "Failed to delete images")).2 (by decide) (by decide)

/-- C2: `deleteGroup` awaits the bulk image deletion first and deletes the
group row only if that phase succeeded; if the image phase fails the whole
call fails and the store — in particular the group record — is exactly as
before.  On success, the image phase committed first and the group row was
then removed from its result. -/
theorem deleteGroup_sequential (db : DB) (gid : Nat) (failAt : Option Nat)
    (gOk : Bool) (e : DbError) (db' : DB) :
    ((deleteImagesByGroup db gid failAt).2 = some e →
      deleteGroup db gid failAt gOk = (db, some e))
    ∧ (deleteGroup db gid failAt gOk = (db', none) →
        (deleteImagesByGroup db gid failAt).2 = none
        ∧ db'.images = (deleteImagesByGroup db gid failAt).1.images
        ∧ db'.groups
            = (deleteImagesByGroup db gid failAt).1.groups.filter
                (fun g => g.id != gid)) := by
  constructor
  · intro h
    have hpair : deleteImagesByGroup db gid failAt
        = ((deleteImagesByGroup db gid failAt).1, some e) := by
      rw [← h]
    have hst : (deleteImagesByGroup db gid failAt).1 = db :=
      deleteImagesByGroup_err_state db gid failAt _ e hpair
    rw [deleteGroup, hpair, hst]
  · intro h
    rw [deleteGroup] at h
    cases hD : deleteImagesByGroup db gid failAt with
    | mk db1 oe =>
        rw [hD] at h
        cases oe with
        | some e2 => simp at h
        | none =>
            cases gOk with
            | false => simp at h
            | true =>
                simp at h
                rw [← h]
                exact ⟨rfl, rfl, rfl⟩

/-- C2 witness: on `dbW`, a cursor failure at step 0 of the image phase makes
`deleteGroup` fail with that same error and leave the store untouched. -/
theorem deleteGroup_sequential_witness :
    (deleteImagesByGroup dbW 1 (some 0)).2
        = some (DbError.writeError "Failed to delete images")
    ∧ deleteGroup dbW 1 (some 0) true
        = (dbW, some (DbError.writeError "Failed to delete images")) := by
  refine ⟨by decide, ?_⟩
  exact (deleteGroup_sequential dbW 1 (some 0) true
    (DbError.writeError "Failed to delete images") dbW).1 (by decide)

/-- C1: a successful cascade delete leaves no image whose `groupId` is the
deleted group's id and no group record with that id. -/
theorem deleteGroup_cascade_complete (db : DB) (gid : Nat) (failAt : Option Nat)
    (gOk : Bool) (db' : DB) :
    deleteGroup db gid failAt gOk = (db', none) →
    db'.images.all (fun i => i.groupId != gid) = true
    ∧ db'.groups.all (fun g => g.id != gid) = true := by
  intro h
  rw [deleteGroup] at h
  cases hD : deleteImagesByGroup db gid failAt with
  | mk db1 oe =>
      rw [hD] at h
      cases oe with
      | some e2 => simp at h
      | none =>
          cases gOk with
          | false => simp at h
          | true =>
              simp at h
              have hst : db1
                  = { db with
                      images := deleteByIds db.images (matchingIds db.images gid) } :=
                deleteImagesByGroup_ok_state db gid failAt db1 hD
              rw [← h]
              constructor
              · rw [hst]
                exact deleteByIds_clears_group db.images gid
              · rw [List.all_eq_true]
                intro g hg
                exact (List.mem_filter.mp hg).2

/-- C1 witness: cascading group 1 out of `dbW` leaves only group 2 and its
image, none of them referencing group 1. -/
theorem deleteGroup_cascade_complete_witness :
    deleteGroup dbW 1 none true
      = ({ groups := [{ id := 2, name := "B", createdAt := "T0", updatedAt := "T0" }],
           images := [{ id := 3, groupId := 2, name := "c", blob := [2],
                        createdAt := "T0" }],
           nextGroupId := 3, nextImageId := 4 }, none)
    ∧ (({ groups := [{ id := 2, name := "B", createdAt := "T0", updatedAt := "T0" }],
          images := [{ id := 3, groupId := 2, name := "c", blob := [2],
                       createdAt := "T0" }],
          nextGroupId := 3, nextImageId := 4 } : DB).images.all
            (fun i => i.groupId != 1) = true
       ∧ ({ groups := [{ id := 2, name := "B", createdAt := "T0", updatedAt := "T0" }],
            images := [{ id := 3, groupId := 2, name := "c", blob := [2],
                         createdAt := "T0" }],
            nextGroupId := 3, nextImageId := 4 } : DB).groups.all
              (fun g => g.id != 1) = true) := by
  refine ⟨by decide, ?_⟩
  exact deleteGroup_cascade_complete dbW 1 none true
    { groups := [{ id := 2, name := "B", createdAt := "T0", updatedAt := "T0" }],
      images := [{ id := 3, groupId := 2, name := "c", blob := [2],
                   createdAt := "T0" }],
      nextGroupId := 3, nextImageId := 4 } (by decide)

/-- Filtering twice with one predicate is the same as filtering once. -/
theorem filter_idem {α : Type} (l : List α) (p : α → Bool) :
    (l.filter p).filter p = l.filter p := by
  rw [List.filter_filter]
  apply List.filter_congr
  intro x _
  exact Bool.and_self _

/-- On a store already clean of group `gid` (no image referencing it, no
group row with that id) the cascade delete succeeds and is a no-op: the
cursor visits nothing and the key delete hits no record. -/
theorem deleteGroup_of_clean (db : DB) (gid : Nat)
    (himg : db.images.all (fun i => i.groupId != gid) = true)
    (hgrp : db.groups.all (fun g => g.id != gid) = true) :
    deleteGroup db gid none true = (db, none) := by
  have hmat : matchingIds db.images gid = [] := by
    unfold matchingIds
    have hfil : db.images.filter (fun i => i.groupId == gid) = [] := by
      rw [List.filter_eq_nil_iff]
      intro a ha
      have h2 := List.all_eq_true.mp himg a ha
      simp [bne] at h2
      simp [h2]
    rw [hfil]
    rfl
  have hgroups : db.groups.filter (fun g => g.id != gid) = db.groups :=
    List.filter_eq_self.mpr (List.all_eq_true.mp hgrp)
  unfold deleteGroup deleteImagesByGroup
  simp [hmat, hgroups, deleteByIds]

/-- C3: deleting by a key that is not present is not an error — `deleteImage`
always succeeds, and repeating it (or repeating a whole `deleteGroup`, given
a healthy engine) succeeds again without changing anything. -/
theorem delete_idempotent (db : DB) (imageId groupId : Nat) :
    (deleteImage db imageId true).2 = none
    ∧ deleteImage (deleteImage db imageId true).1 imageId true
        = ((deleteImage db imageId true).1, none)
    ∧ (deleteGroup db groupId none true).2 = none
    ∧ deleteGroup (deleteGroup db groupId none true).1 groupId none true
        = ((deleteGroup db groupId none true).1, none) := by
  refine ⟨rfl, ?_, ?_, ?_⟩
  · have hf : (db.images.filter (fun i => i.id != imageId)).filter
        (fun i => i.id != imageId) = db.images.filter (fun i => i.id != imageId) :=
      filter_idem _ _
    simp [deleteImage, hf]
  · rfl
  · have hfirst : (deleteGroup db groupId none true).1
        = { db with
            images := deleteByIds db.images (matchingIds db.images groupId),
            groups := db.groups.filter (fun g => g.id != groupId) } := rfl
    rw [hfirst]
    apply deleteGroup_of_clean
    · exact deleteByIds_clears_group db.images groupId
    · rw [List.all_eq_true]
      intro g hg
      exact (List.mem_filter.mp hg).2

/-- A read-modify-write that replaces the records selected by `c` using `u`
preserves any projection that `u` leaves alone. -/
theorem map_update_proj {α β : Type} (l : List α) (c : α → Bool) (u : α → α)
    (proj : α → β) (hp : ∀ a, proj (u a) = proj a) :
    (l.map (fun a => if c a then u a else a)).map proj = l.map proj := by
  induction l with
  | nil => rfl
  | cons a as ih =>
      by_cases h : c a = true
      · simp [h, hp, ih]
      · simp [h, ih]

/-- A read-modify-write that replaces the records selected by `c` using `u`
leaves every unselected record exactly as it was, provided `u` does not
change selection. -/
theorem map_update_filter_not {α : Type} (l : List α) (c : α → Bool) (u : α → α)
    (hu : ∀ a, c (u a) = c a) :
    (l.map (fun a => if c a then u a else a)).filter (fun a => !(c a))
      = l.filter (fun a => !(c a)) := by
  induction l with
  | nil => rfl
  | cons a as ih =>
      by_cases h : c a = true
      · simp [h, hu, ih, List.filter_cons]
      · have h' : c a = false := Bool.eq_false_iff.mpr h
        simp [h', ih, List.filter_cons]

/-- Every record of a read-modify-write result is either an unselected
original or the update of a selected original. -/
theorem map_update_all {α : Type} (l : List α) (c : α → Bool) (u : α → α)
    (p : α → Bool) (h1 : ∀ a, c a = false → p a = true)
    (h2 : ∀ a, c a = true → p (u a) = true) :
    (l.map (fun a => if c a then u a else a)).all p = true := by
  rw [List.all_eq_true]
  intro x hx
  rcases List.mem_map.mp hx with ⟨a, _, rfl⟩
  cases h : c a with
  | false => simp [h, h1 a h]
  | true => simp [h, h2 a h]

/-- A successful `renameGroup` produced exactly the read-modify-write state:
the store's record for the key got its `name` and `updatedAt` overwritten,
everything else is carried over. -/
theorem renameGroup_ok_state (db : DB) (gid : Nat) (nn t : String) (dbG : DB)
    (h : renameGroup db gid nn t true true = (dbG, none)) :
    dbG = { db with groups := db.groups.map (fun g =>
        if g.id == gid then { g with name := nn, updatedAt := t } else g) } := by
  unfold renameGroup at h
  cases hf : db.groups.find? (fun g => g.id == gid) with
  | none =>
      rw [hf] at h
      exact Option.noConfusion (congrArg Prod.snd h)
  | some g0 =>
      rw [hf] at h
      exact (congrArg Prod.fst h).symm

/-- A successful `renameImage` produced exactly the read-modify-write state:
only the `name` of the record with the key is overwritten. -/
theorem renameImage_ok_state (db : DB) (iid : Nat) (nn : String) (dbI : DB)
    (h : renameImage db iid nn true true = (dbI, none)) :
    dbI = { db with images := db.images.map (fun i =>
        if i.id == iid then { i with name := nn } else i) } := by
  unfold renameImage at h
  cases hf : db.images.find? (fun i => i.id == iid) with
  | none =>
      rw [hf] at h
      exact Option.noConfusion (congrArg Prod.snd h)
  | some i0 =>
      rw [hf] at h
      exact (congrArg Prod.fst h).symm

/-- C4: a successful `renameGroup` changes only `name` and `updatedAt` — the
`(id, createdAt)` projection of the store is untouched, every group with a
different id is untouched verbatim, and the images store does not move; a
successful `renameImage` changes only `name`, preserving `id`, `groupId`,
`blob` and `createdAt` and leaving other images and the groups store
untouched. -/
theorem rename_preserves_identity (db : DB) (gid iid : Nat) (nn t : String)
    (dbG dbI : DB) :
    (renameGroup db gid nn t true true = (dbG, none) →
      dbG.groups.map (fun g => (g.id, g.createdAt))
          = db.groups.map (fun g => (g.id, g.createdAt))
      ∧ dbG.groups.all
          (fun g => (g.id != gid) || ((g.name == nn) && (g.updatedAt == t))) = true
      ∧ dbG.groups.filter (fun g => g.id != gid)
          = db.groups.filter (fun g => g.id != gid)
      ∧ dbG.images = db.images)
    ∧ (renameImage db iid nn true true = (dbI, none) →
      dbI.images.map (fun i => (i.id, i.groupId, i.blob, i.createdAt))
          = db.images.map (fun i => (i.id, i.groupId, i.blob, i.createdAt))
      ∧ dbI.images.all (fun i => (i.id != iid) || (i.name == nn)) = true
      ∧ dbI.images.filter (fun i => i.id != iid)
          = db.images.filter (fun i => i.id != iid)
      ∧ dbI.groups = db.groups) := by
  constructor
  · intro h
    rw [renameGroup_ok_state db gid nn t dbG h]
    refine ⟨?_, ?_, ?_, rfl⟩
    · exact map_update_proj db.groups (fun g => g.id == gid)
        (fun g => { g with name := nn, updatedAt := t })
        (fun g => (g.id, g.createdAt)) (fun a => rfl)
    · apply map_update_all
      · intro a ha
        simp [bne, ha]
      · intro a ha
        simp [ha]
    · exact map_update_filter_not db.groups (fun g => g.id == gid)
        (fun g => { g with name := nn, updatedAt := t }) (fun a => rfl)
  · intro h
    rw [renameImage_ok_state db iid nn dbI h]
    refine ⟨?_, ?_, ?_, rfl⟩
    · exact map_update_proj db.images (fun i => i.id == iid)
        (fun i => { i with name := nn })
        (fun i => (i.id, i.groupId, i.blob, i.createdAt)) (fun a => rfl)
    · apply map_update_all
      · intro a ha
        simp [bne, ha]
      · intro a ha
        simp [ha]
    · exact map_update_filter_not db.images (fun i => i.id == iid)
        (fun i => { i with name := nn }) (fun a => rfl)

/-- C4 witness: renaming group 1 of `dbW` to "X" and image 1 to "x.jpg"
preserves ids, creation timestamps, foreign keys and blobs. -/
theorem rename_preserves_identity_witness :
    (renameGroup dbW 1 "X" "T1" true true).1.groups.map (fun g => (g.id, g.createdAt))
        = dbW.groups.map (fun g => (g.id, g.createdAt))
    ∧ (renameGroup dbW 1 "X" "T1" true true).1.images = dbW.images
    ∧ (renameImage dbW 1 "x.jpg" true true).1.images.map
          (fun i => (i.id, i.groupId, i.blob, i.createdAt))
        = dbW.images.map (fun i => (i.id, i.groupId, i.blob, i.createdAt))
    ∧ (renameImage dbW 1 "x.jpg" true true).1.groups = dbW.groups := by
  have hG := (rename_preserves_identity dbW 1 1 "X" "T1"
    (renameGroup dbW 1 "X" "T1" true true).1
    (renameImage dbW 1 "x.jpg" true true).1).1 (by decide)
  have hI := (rename_preserves_identity dbW 1 1 "x.jpg" "T1"
    (renameGroup dbW 1 "x.jpg" "T1" true true).1
    (renameImage dbW 1 "x.jpg" true true).1).2 (by decide)
  exact ⟨hG.1, hG.2.2.2, hI.1, hI.2.2.2⟩

/-- C5: reading a missing group id succeeds with an absent (`none`) result,
while renaming a missing group id, or a missing image id, fails with the
"not found" rejection — the read-versus-mutate distinction of the code. -/
theorem missing_record_semantics (db : DB) (gid iid : Nat) (nn t : String) :
    (db.groups.all (fun g => g.id != gid) = true →
      getGroup db gid true = Except.ok none
      ∧ renameGroup db gid nn t true true
          = (db, some (DbError.notFound
              ("Group with ID " ++ toString gid ++ " not found"))))
    ∧ (db.images.all (fun i => i.id != iid) = true →
      renameImage db iid nn true true
          = (db, some (DbError.notFound
              ("Image with ID " ++ toString iid ++ " not found")))) := by
  constructor
  · intro h
    have hf : db.groups.find? (fun g => g.id == gid) = none := by
      rw [List.find?_eq_none]
      intro g hg
      have hb := List.all_eq_true.mp h g hg
      simp [bne] at hb
      simp [hb]
    constructor
    · unfold getGroup
      rw [hf]
      rfl
    · unfold renameGroup
      rw [hf]
      rfl
  · intro h
    have hf : db.images.find? (fun i => i.id == iid) = none := by
      rw [List.find?_eq_none]
      intro i hi
      have hb := List.all_eq_true.mp h i hi
      simp [bne] at hb
      simp [hb]
    unfold renameImage
    rw [hf]
    rfl

/-- C5 witness: id 99 is absent from `dbW`; `getGroup` yields `none` while
both renames fail with the "not found" error. -/
theorem missing_record_semantics_witness :
    (dbW.groups.all (fun g => g.id != 99) = true
      ∧ getGroup dbW 99 true = Except.ok none
      ∧ renameGroup dbW 99 "X" "T1" true true
          = (dbW, some (DbError.notFound "Group with ID 99 not found")))
    ∧ (dbW.images.all (fun i => i.id != 99) = true
      ∧ renameImage dbW 99 "X" true true
          = (dbW, some (DbError.notFound "Image with ID 99 not found"))) := by
  have h := missing_record_semantics dbW 99 99 "X" "T1"
  have h1 := h.1 (by decide)
  have h2 := h.2 (by decide)
  exact ⟨⟨by decide, h1.1, h1.2⟩, by decide, h2⟩

/-- C6: the `groupId`-index query returns exactly the stored images whose
`groupId` equals the queried group — everything in the result matches, every
matching record is in the result — and it returns the empty sequence (not an
error) when nothing matches; adding an image appends it to the result of its
own group's query and leaves other groups' queries unchanged. -/
theorem getImagesByGroup_index_correct (db : DB) (gid gid2 iid : Nat)
    (nm t : String) (bl : List Nat) (db2 : DB) :
    getImagesByGroup db gid true
        = Except.ok (db.images.filter (fun i => i.groupId == gid))
    ∧ (db.images.filter (fun i => i.groupId == gid)).all
        (fun i => i.groupId == gid) = true
    ∧ db.images.all (fun i =>
        (i.groupId != gid)
          || (db.images.filter (fun j => j.groupId == gid)).contains i) = true
    ∧ (db.images.all (fun i => i.groupId != gid) = true →
        getImagesByGroup db gid true = Except.ok [])
    ∧ (addImage db gid2 nm bl t true = (db2, Except.ok iid) →
        getImagesByGroup db2 gid true
          = Except.ok ((db.images.filter (fun i => i.groupId == gid))
              ++ (if gid2 == gid then
                    [{ id := db.nextImageId, groupId := gid2, name := nm,
                       blob := bl, createdAt := t }]
                  else []))) := by
  refine ⟨rfl, ?_, ?_, ?_, ?_⟩
  · rw [List.all_eq_true]
    intro i hi
    exact (List.mem_filter.mp hi).2
  · rw [List.all_eq_true]
    intro i hi
    cases hb : (i.groupId == gid) with
    | false => simp [bne, hb]
    | true =>
        have hc : (db.images.filter (fun j => j.groupId == gid)).contains i = true :=
          List.elem_iff.mpr (List.mem_filter.mpr ⟨hi, hb⟩)
        rw [Bool.or_eq_true]
        exact Or.inr hc
  · intro h
    have hfil : db.images.filter (fun i => i.groupId == gid) = [] := by
      rw [List.filter_eq_nil_iff]
      intro a ha
      have hb := List.all_eq_true.mp h a ha
      simp [bne] at hb
      simp [hb]
    unfold getImagesByGroup
    rw [hfil]
    rfl
  · intro h
    have hdb2 : db2 = { db with
        images := db.images ++
          [{ id := db.nextImageId, groupId := gid2, name := nm,
             blob := bl, createdAt := t }],
        nextImageId := db.nextImageId + 1 } := (congrArg Prod.fst h).symm
    rw [hdb2]
    unfold getImagesByGroup
    rw [if_pos rfl]
    rw [List.filter_append]
    by_cases hg : gid2 = gid
    · simp [List.filter_cons, hg]
    · simp [List.filter_cons, hg]

/-- C6 witness: on `dbW`, querying group 1 yields exactly images 1 and 2, and
adding an image to group 2 leaves group 1's query unchanged while group 2's
query gains the new record. -/
theorem getImagesByGroup_index_correct_witness :
    getImagesByGroup dbW 1 true
        = Except.ok (dbW.images.filter (fun i => i.groupId == 1))
    ∧ dbW.images.all (fun i =>
        (i.groupId != 1)
          || (dbW.images.filter (fun j => j.groupId == 1)).contains i) = true
    ∧ getImagesByGroup
        (addImage dbW 2 "d" [7] "T2" true).1 1 true
          = Except.ok ((dbW.images.filter (fun i => i.groupId == 1))
              ++ (if (2 : Nat) == 1 then
                    [{ id := dbW.nextImageId, groupId := 2, name := "d",
                       blob := [7], createdAt := "T2" }]
                  else [])) := by
  have h := getImagesByGroup_index_correct dbW 1 2 4 "d" "T2" [7]
    (addImage dbW 2 "d" [7] "T2" true).1
  exact ⟨h.1, h.2.2.1, h.2.2.2.2 rfl⟩

/-- C7 counterexample: the repository performs no name validation — renaming
group 1 of `dbW` (whose prior name is "Trip") to the empty string succeeds,
and the stored name afterwards is "" rather than the prior value. -/
theorem renameGroup_empty_name_counterexample :
    renameGroup dbW 1 "" "T1" true true
      = ({ groups := [{ id := 1, name := "", createdAt := "T0", updatedAt := "T1" },
                      { id := 2, name := "B", createdAt := "T0", updatedAt := "T0" }],
           images := dbW.images, nextGroupId := 3, nextImageId := 4 }, none)
    ∧ ("" : String) ≠ "Trip" := by
  exact ⟨by decide, by decide⟩

/-- C7 (amended): neither the repository nor the store rejects an empty name:
`renameGroup(id, "")` on an existing group succeeds, and afterwards the
group's stored name is the empty string (the prior name is not retained). -/
theorem renameGroup_empty_name_accepted (db : DB) (gid : Nat) (t : String)
    (dbG : DB) :
    (renameGroup db gid "" t true true = (dbG, none) →
      dbG.groups.all (fun g => (g.id != gid) || (g.name == "")) = true)
    ∧ (db.groups.all (fun g => g.id != gid) = false →
      (renameGroup db gid "" t true true).2 = none) := by
  constructor
  · intro h
    rw [renameGroup_ok_state db gid "" t dbG h]
    apply map_update_all
    · intro a ha
      simp [bne, ha]
    · intro a ha
      simp [ha]
  · intro h
    rcases List.all_eq_false.mp h with ⟨g, hg, hgid⟩
    have hb : (g.id == gid) = true := by
      cases hx : (g.id == gid) with
      | true => rfl
      | false => exact absurd (by simp [bne, hx]) hgid
    have hsome : (db.groups.find? (fun g => g.id == gid)).isSome = true :=
      List.find?_isSome.mpr ⟨g, hg, hb⟩
    unfold renameGroup
    cases hf : db.groups.find? (fun g => g.id == gid) with
    | none => rw [hf] at hsome; simp at hsome
    | some g0 => rfl

/-- C7 witness: group 1 exists in `dbW`, so the empty rename succeeds there
and every group with id 1 afterwards carries the empty name. -/
theorem renameGroup_empty_name_accepted_witness :
    (dbW.groups.all (fun g => g.id != 1) = false
      ∧ (renameGroup dbW 1 "" "T1" true true).2 = none)
    ∧ (renameGroup dbW 1 "" "T1" true true).1.groups.all
        (fun g => (g.id != 1) || (g.name == "")) = true := by
  have h := renameGroup_empty_name_accepted dbW 1 "T1"
    (renameGroup dbW 1 "" "T1" true true).1
  exact ⟨⟨by decide, h.2 (by decide)⟩, h.1 (by decide)⟩

/-- C8 counterexample: `createGroup` reads the clock twice (once for
`createdAt`, once for `updatedAt`); when the two readings differ — here
"T1" then "T2" — the call still succeeds but the inserted record's
`createdAt` and `updatedAt` are not equal. -/
theorem createGroup_timestamps_counterexample :
    (createGroup DB.empty "Trip" "T1" "T2" true).2 = Except.ok 1
    ∧ (createGroup DB.empty "Trip" "T1" "T2" true).1.groups.all
        (fun g => g.createdAt == g.updatedAt) = false
    ∧ ("T1" : String) ≠ "T2" := by
  exact ⟨rfl, by decide, by decide⟩

/-- C8 (amended): a successful `createGroup` inserts exactly one new group
record at the end of the store, leaving prior records in place, and returns
the store-assigned id; the new record's `createdAt` and `updatedAt` are the
two clock readings taken at creation, in order, so the two fields are equal
whenever the readings coincide. -/
theorem createGroup_spec (db : DB) (name t1 t2 : String) (db' : DB) (gid : Nat)
    (h : createGroup db name t1 t2 true = (db', Except.ok gid)) :
    db'.groups.length = db.groups.length + 1
    ∧ db'.groups.take db.groups.length = db.groups
    ∧ gid = db.nextGroupId
    ∧ db'.groups.getLast?
        = some { id := db.nextGroupId, name := name,
                 createdAt := t1, updatedAt := t2 }
    ∧ db'.images = db.images
    ∧ (t1 = t2 →
        db'.groups.all (fun g => g.createdAt == g.updatedAt)
          = db.groups.all (fun g => g.createdAt == g.updatedAt)) := by
  have hdb : db' = { db with
      groups := db.groups ++
        [{ id := db.nextGroupId, name := name, createdAt := t1, updatedAt := t2 }],
      nextGroupId := db.nextGroupId + 1 } := (congrArg Prod.fst h).symm
  have hgid : gid = db.nextGroupId := by
    have h2 := congrArg Prod.snd h
    exact (Except.ok.inj h2).symm
  subst hdb
  refine ⟨by simp, List.take_left db.groups _, hgid, List.getLast?_concat _, rfl, ?_⟩
  intro ht
  subst ht
  simp [List.all_append]

/-- C8 witness: creating "Trip" in an empty store with coinciding clock
readings "T0", "T0" yields id 1, one record, and equal timestamps. -/
theorem createGroup_spec_witness :
    (createGroup DB.empty "Trip" "T0" "T0" true).1.groups.length
        = DB.empty.groups.length + 1
    ∧ (1 : Nat) = DB.empty.nextGroupId
    ∧ (createGroup DB.empty "Trip" "T0" "T0" true).1.groups.getLast?
        = some { id := DB.empty.nextGroupId, name := "Trip",
                 createdAt := "T0", updatedAt := "T0" }
    ∧ (createGroup DB.empty "Trip" "T0" "T0" true).1.groups.all
          (fun g => g.createdAt == g.updatedAt)
        = DB.empty.groups.all (fun g => g.createdAt == g.updatedAt) := by
  have h := createGroup_spec DB.empty "Trip" "T0" "T0"
    (createGroup DB.empty "Trip" "T0" "T0" true).1 1 rfl
  exact ⟨h.1, h.2.2.1, h.2.2.2.1, h.2.2.2.2.2 rfl⟩

/-- Every repository call performs exactly one `indexedDB.open`. -/
theorem runOp_opened (st : DB × Nat) (op : Op) : (runOp st op).2 = st.2 + 1 := by
  cases op <;> rfl

/-- C9 (amended): the connection handle is not a shared process-wide
resource: every repository operation begins with its own `openDB` call,
which performs a fresh `indexedDB.open` — after `n` operations `n`
connections have been opened, and the handles consumed by successive
operations are the consecutive fresh ones `st.2, st.2 + 1, …`, never a
reused one. -/
theorem openDB_per_operation (st : DB × Nat) (ops : List Op) :
    (runOps st ops).1.2 = st.2 + ops.length
    ∧ (runOps st ops).2 = List.range' st.2 ops.length := by
  induction ops generalizing st with
  | nil => exact ⟨rfl, rfl⟩
  | cons op rest ih =>
      have hstep : runOps st (op :: rest)
          = ((runOps (runOp st op) rest).1, st.2 :: (runOps (runOp st op) rest).2) := rfl
      rw [hstep]
      constructor
      · have h1 := (ih (runOp st op)).1
        rw [h1, runOp_opened]
        simp [List.length_cons]
        omega
      · have h2 := (ih (runOp st op)).2
        show st.2 :: (runOps (runOp st op) rest).2 = List.range' st.2 (rest.length + 1)
        rw [h2, runOp_opened]
        rfl

/-- C9 counterexample: two repository operations starting from a fresh
process open two connections, and the handle used by the second operation
differs from the handle used by the first — the first handle is not
reused. -/
theorem connection_not_reused :
    (runOps (DB.empty, 0) [Op.createGroupOp "A" "T" "T", Op.getAllGroupsOp]).1.2 = 2
    ∧ (runOps (DB.empty, 0) [Op.createGroupOp "A" "T" "T", Op.getAllGroupsOp]).2
        = [0, 1]
    ∧ (0 : Nat) ≠ 1 := by
  exact ⟨rfl, rfl, by decide⟩
